import Mathlib

/-!
Verification of the FreeplayExporter span-export pipeline
(src/dist/freeplay-exporter.js) against its specification.

Shallow embedding conventions:
* JavaScript strings are modelled as `List Char` (a sequence of code units);
  `s.slice(a, b)` with literal non-negative indices is `(s.take b).drop a`,
  and `s.slice(a)` is `s.drop a`.
* A JavaScript attributes object is an association list
  `List (List Char × AttrValue)`; an absent key is an absent entry, and an
  explicit `null`/`undefined` value is `AttrValue.null`.
* `JSON.parse` is an external platform collaborator; it is passed in as an
  oracle of type `List Char → Except Unit ParsedJson`.  A successful parse
  yields either a JSON array of messages (`ParsedJson.arr`) or some other
  JSON value (`ParsedJson.nonArray`).
* The network is an oracle `Nat → FetchOutcome` giving, for the i-th request
  issued in a batch, either an HTTP response with a status code or a
  transport-level rejection.
* The promise chain `fetch(...).then(...).catch(...).finally(...)` built at
  lines 111-131 is modelled by the settlement functions `afterFetch`,
  `afterThen`, `afterCatch`, `promiseState`.
-/

namespace Freeplay

/-- JavaScript `s.slice(a, b)` for the literal non-negative indices used in
the source, on a string modelled as a list of characters. -/
def jsSlice (s : List Char) (a b : Nat) : List Char := (s.take b).drop a

/-- JavaScript `s.slice(a)` for a literal non-negative index. -/
def jsSliceFrom (s : List Char) (a : Nat) : List Char := s.drop a

/-- Lines 24-29: `formatTraceIdToUUID`.  Throws (modelled as `Except.error`
carrying the thrown message) when the trace id is not exactly 32 characters,
otherwise rebuilds the string as five hyphen-separated slices. -/
def formatTraceIdToUUID (traceId : List Char) : Except (List Char) (List Char) :=
  if traceId.length ≠ 32 then
    Except.error ("Invalid traceId length; expected 32 characters".data)
  else
    Except.ok (jsSlice traceId 0 8 ++ '-' ::
      (jsSlice traceId 8 12 ++ '-' ::
        (jsSlice traceId 12 16 ++ '-' ::
          (jsSlice traceId 16 20 ++ '-' :: jsSliceFrom traceId 20))))

/-- A span attribute value: a string, a number, or an explicit
`null`/`undefined`.  (The `num` case models the JavaScript numbers the
exporter actually meets; the claims only ever use integral values.) -/
inductive AttrValue
  | str (s : List Char)
  | num (n : Int)
  | null
deriving DecidableEq

/-- JavaScript truthiness of an attribute value: the empty string, the
number 0 and `null`/`undefined` are falsy. -/
def AttrValue.truthy : AttrValue → Bool
  | AttrValue.str s => decide (s ≠ [])
  | AttrValue.num n => decide (n ≠ 0)
  | AttrValue.null => false

/-- JavaScript `String(v)` coercion, as used for `ai.response.text` and for
the argument of `JSON.parse`. -/
def AttrValue.jsToString : AttrValue → List Char
  | AttrValue.str s => s
  | AttrValue.num n => (toString n).data
  | AttrValue.null => "null".data

/-- Truthiness of a possibly-absent attribute (`!x` on a property access). -/
def truthyOpt : Option AttrValue → Bool
  | none => false
  | some v => v.truthy

/-- Property access `attributes[key]` on an attributes object. -/
def attrLookup (attrs : List (List Char × AttrValue)) (k : List Char) : Option AttrValue :=
  match attrs with
  | [] => none
  | (k2, v) :: rest => if k2 = k then some v else attrLookup rest k

/-- JavaScript `s.startsWith(p)`: `p` is an initial segment of `s`. -/
def strStartsWith : List Char → List Char → Bool
  | _, [] => true
  | [], _ :: _ => false
  | b :: ss, a :: ps => decide (b = a) && strStartsWith ss ps

/-- The fixed key lead-in `"ai.telemetry.metadata.inputs."` of line 38. -/
def metadataInputsKey : List Char := "ai.telemetry.metadata.inputs.".data

/-- JavaScript object assignment `obj[k] = v`: overwrite the entry in place
when the key exists, otherwise append a new entry. -/
def insertJsObj (m : List (List Char × AttrValue)) (k : List Char) (v : AttrValue) :
    List (List Char × AttrValue) :=
  if m.any (fun p => decide (p.1 = k)) then
    m.map (fun p => if p.1 = k then (k, v) else p)
  else m ++ [(k, v)]

/-- Lines 35-46: `extractInputs`.  Walks the attribute entries in order; a key
beginning with `metadataInputsKey` whose value is neither `null` nor
`undefined` contributes its value under the key's remaining suffix. -/
def extractInputs (attrs : List (List Char × AttrValue)) : List (List Char × AttrValue) :=
  attrs.foldl
    (fun inputs kv =>
      if strStartsWith kv.1 metadataInputsKey then
        if kv.2 ≠ AttrValue.null then
          insertJsObj inputs (kv.1.drop metadataInputsKey.length) kv.2
        else inputs
      else inputs)
    []

/-- One chat message, `{ role, content }`. -/
structure Message where
  role : List Char
  content : List Char
deriving DecidableEq

/-- The result of a successful `JSON.parse` of `ai.prompt.messages`: either a
JSON array (modelled as a list of messages) or any other JSON value.  The
source assigns the parse result to `messages` untyped, so a non-array value
can flow onward. -/
inductive ParsedJson
  | arr (ms : List Message)
  | nonArray
deriving DecidableEq

/-- The wire payload of lines 100-107. -/
structure Payload where
  messages : ParsedJson
  inputs : List (List Char × AttrValue)
  prompt_template_version_id : AttrValue
  environment : List Char
deriving DecidableEq

/-- One issued POST request: its URL (line 109), bearer header (line 115) and
payload (line 117). -/
structure Request where
  url : List Char
  authorization : List Char
  payload : Payload
deriving DecidableEq

/-- Exporter configuration after the constructor (lines 11-17) has resolved
the base URL default. -/
structure Config where
  baseUrl : List Char
  projectId : List Char
  apiKey : List Char
  environment : List Char

/-- A readable span as consumed by the exporter: a name, the trace id exposed
by `spanContext()`, and the attributes object. -/
structure Span where
  name : List Char
  traceId : List Char
  attributes : List (List Char × AttrValue)

/-- Attribute key `"ai.telemetry.functionId"` (line 70). -/
def functionIdKey : List Char := "ai.telemetry.functionId".data

/-- Attribute key `"ai.prompt.messages"` (line 77). -/
def promptMessagesKey : List Char := "ai.prompt.messages".data

/-- Attribute key `"ai.response.text"` (line 93). -/
def responseTextKey : List Char := "ai.response.text".data

/-- The closed list of recognized span names (line 57). -/
def recognizedNames : List (List Char) :=
  ["ai.generateText.doGenerate".data, "ai.streamText.doStream".data]

/-- Line 57: `[...].includes(span.name)` — exact string equality against the
fixed two-element list. -/
def isRelevant (s : Span) : Bool :=
  recognizedNames.any (fun n => decide (n = s.name))

/-- Why a relevant span was dropped (each case is a `console.warn` +
`continue` in lines 59-91). -/
inductive DropReason
  | invalidTraceId
  | missingFunctionId
  | missingPromptMessages
  | promptMessagesParseError
deriving DecidableEq

/-- Outcome of processing one relevant span: dropped with a logged warning,
a POST request issued, or a synchronous TypeError escaping `export`
(`messages.push` on a non-array parse result, line 95). -/
inductive SpanStep
  | dropped (reason : DropReason)
  | issued (req : Request)
  | thrown
deriving DecidableEq

/-- The request URL of line 109. -/
def mkUrl (cfg : Config) (sessionId : List Char) : List Char :=
  cfg.baseUrl ++ "/projects/".data ++ cfg.projectId ++ "/sessions/".data ++
    sessionId ++ "/completions".data

/-- The POST request of lines 111-118 for one surviving span. -/
def mkRequest (cfg : Config) (span : Span) (sessionId : List Char)
    (msgs : ParsedJson) (functionId : AttrValue) : Request :=
  { url := mkUrl cfg sessionId
  , authorization := "Bearer ".data ++ cfg.apiKey
  , payload :=
    { messages := msgs
    , inputs := extractInputs span.attributes
    , prompt_template_version_id := functionId
    , environment := cfg.environment } }

/-- The external `JSON.parse` collaborator. -/
abbrev JsonParse := List Char → Except Unit ParsedJson

/-- Lines 58-133, the body of the `for` loop for one relevant span: trace-id
derivation (drop on throw), the `!functionId` check, the
`promptMessagesStr` truthiness check, `JSON.parse` (drop on throw), the
optional assistant append (which throws a TypeError when the parse result is
not an array), and finally the request construction. -/
def processSpan (cfg : Config) (parse : JsonParse) (span : Span) : SpanStep :=
  match formatTraceIdToUUID span.traceId with
  | Except.error _ => SpanStep.dropped DropReason.invalidTraceId
  | Except.ok sessionId =>
    match attrLookup span.attributes functionIdKey with
    | none => SpanStep.dropped DropReason.missingFunctionId
    | some fv =>
      if fv.truthy = false then SpanStep.dropped DropReason.missingFunctionId
      else
        match attrLookup span.attributes promptMessagesKey with
        | none => SpanStep.dropped DropReason.missingPromptMessages
        | some pmVal =>
          if pmVal.truthy = false then SpanStep.dropped DropReason.missingPromptMessages
          else
            match parse pmVal.jsToString with
            | Except.error _ => SpanStep.dropped DropReason.promptMessagesParseError
            | Except.ok parsed =>
              let responseText := attrLookup span.attributes responseTextKey
              match parsed with
              | ParsedJson.nonArray =>
                if truthyOpt responseText then SpanStep.thrown
                else SpanStep.issued (mkRequest cfg span sessionId ParsedJson.nonArray fv)
              | ParsedJson.arr ms =>
                let ms2 := match responseText with
                  | some rv =>
                    if rv.truthy then ms ++ [Message.mk ("assistant".data) rv.jsToString]
                    else ms
                  | none => ms
                SpanStep.issued (mkRequest cfg span sessionId (ParsedJson.arr ms2) fv)

/-- The settlement outcome of the raw `fetch` promise. -/
inductive FetchOutcome
  | response (status : Nat)
  | transportError
deriving DecidableEq

/-- Whether a promise in the chain fulfilled or rejected. -/
inductive SettleState
  | fulfilled
  | rejected
deriving DecidableEq

/-- `Response.ok`: status in the 2xx range. -/
def responseOk (status : Nat) : Bool := decide (200 ≤ status) && decide (status < 300)

/-- Settlement of the raw `fetch(...)` promise: a transport error rejects,
any HTTP response (whatever its status) fulfills. -/
def afterFetch : FetchOutcome → SettleState
  | FetchOutcome.response _ => SettleState.fulfilled
  | FetchOutcome.transportError => SettleState.rejected

/-- Settlement after the `.then` handler of lines 119-123, which throws on a
non-2xx response; a prior rejection passes through. -/
def afterThen (o : FetchOutcome) : SettleState :=
  match afterFetch o with
  | SettleState.rejected => SettleState.rejected
  | SettleState.fulfilled =>
    match o with
    | FetchOutcome.response status =>
      if responseOk status then SettleState.fulfilled else SettleState.rejected
    | FetchOutcome.transportError => SettleState.rejected

/-- Settlement after the `.catch` handler of lines 124-127: the handler only
logs and returns normally, so a rejection is converted into fulfillment. -/
def afterCatch (o : FetchOutcome) : SettleState :=
  match afterThen o with
  | SettleState.rejected => SettleState.fulfilled
  | SettleState.fulfilled => SettleState.fulfilled

/-- Settlement of the whole tracked promise: `.finally` (lines 128-131)
preserves the state of the chain. -/
def promiseState (o : FetchOutcome) : SettleState := afterCatch o

/-- The error message of line 147. -/
def failMessage (n : Nat) : List Char :=
  "Failed to export ".data ++ (toString n).data ++ " span(s)".data

/-- The batch result reported by the callback (lines 142-153). -/
structure ExportResult where
  code : Nat
  error : Option (List Char)
deriving DecidableEq

/-- Settlement states of the batch's promises, in issue order, as observed by
`Promise.allSettled` (line 142). -/
def settleStates (n : Nat) (oracle : Nat → FetchOutcome) : List SettleState :=
  (List.range n).map (fun i => promiseState (oracle i))

/-- Lines 142-153: count the rejected settlements and report failure with the
count, or success. -/
def batchResult (n : Nat) (oracle : Nat → FetchOutcome) : ExportResult :=
  if ((settleStates n oracle).filter (fun s => decide (s = SettleState.rejected))).length > 0 then
    { code := 1
    , error := some (failMessage
        ((settleStates n oracle).filter (fun s => decide (s = SettleState.rejected))).length) }
  else { code := 0, error := none }

/-- What one call of `export` does, observably: either a synchronous throw
(no callback at all), or termination with the issued requests and the list of
callback invocations. -/
inductive ExportOutcome
  | thrown
  | completed (requests : List Request) (callbacks : List ExportResult)
deriving DecidableEq

/-- The `for` loop of lines 54-135: requests accumulated in issue order;
`none` when a span processing step throws out of `export`. -/
def collectRequests (cfg : Config) (parse : JsonParse) : List Span → Option (List Request)
  | [] => some []
  | s :: rest =>
    if isRelevant s then
      match processSpan cfg parse s with
      | SpanStep.thrown => none
      | SpanStep.dropped _ => collectRequests cfg parse rest
      | SpanStep.issued req => (collectRequests cfg parse rest).map (fun rs => req :: rs)
    else collectRequests cfg parse rest

/-- Lines 53-154: one `export(spans, resultCallback)` call.  With no issued
requests the callback is invoked immediately with success (lines 136-140);
otherwise once, after all promises settle, with the aggregated result. -/
def exportRun (cfg : Config) (parse : JsonParse) (oracle : Nat → FetchOutcome)
    (spans : List Span) : ExportOutcome :=
  match collectRequests cfg parse spans with
  | none => ExportOutcome.thrown
  | some reqs =>
    if reqs.length = 0 then ExportOutcome.completed reqs [{ code := 0, error := none }]
    else ExportOutcome.completed reqs [batchResult reqs.length oracle]

/-- A transition of the `pendingExports` list: a delivery (identified by the
identity of its promise object) is issued, or it settles. -/
inductive Event
  | issue (id : Nat)
  | settle (id : Nat)
deriving DecidableEq

/-- Line 132 (`pendingExports.push(promise)`) and lines 128-131 (the
`finally` removing the settled promise by reference). -/
def stepPending (pending : List Nat) : Event → List Nat
  | Event.issue i => pending ++ [i]
  | Event.settle i => pending.filter (fun p => decide (p ≠ i))

/-- The `pendingExports` list after a trace of issue/settlement events,
starting from the empty list of the constructor (line 12). -/
def runPending (evs : List Event) : List Nat := evs.foldl stepPending []

/-- The ids issued along a trace, in order. -/
def issuedBy : List Event → List Nat
  | [] => []
  | Event.issue i :: rest => i :: issuedBy rest
  | Event.settle _ :: rest => issuedBy rest

/-- The ids settled along a trace, in order. -/
def settledBy : List Event → List Nat
  | [] => []
  | Event.settle i :: rest => i :: settledBy rest
  | Event.issue _ :: rest => settledBy rest

/-- Well-formedness of a trace: no delivery settles before it has been
issued (a promise cannot settle before it exists).  The first argument
accumulates the ids settled so far. -/
def noSettleBeforeIssue : List Nat → List Event → Bool
  | _, [] => true
  | settled, Event.issue i :: rest => decide (i ∉ settled) && noSettleBeforeIssue settled rest
  | settled, Event.settle i :: rest => noSettleBeforeIssue (settled ++ [i]) rest

/-- The exporter instance state seen by the lifecycle methods: the pending
promise ids and, for each delivery, its eventual settlement outcome. -/
structure ExporterState where
  pending : List Nat
  outcome : Nat → FetchOutcome

/-- Whether `Promise.all(this.pendingExports)` (line 160) rejects: it does
exactly when some tracked promise rejects. -/
def flushRejects (st : ExporterState) : Bool :=
  st.pending.any (fun i => decide (promiseState (st.outcome i) = SettleState.rejected))

/-- The deliveries a `forceFlush` call awaits: the in-flight set at call
time. -/
def flushAwaits (st : ExporterState) : List Nat := st.pending

/-- Removal of one settled promise from `pendingExports` (lines 128-131). -/
def settleRemove (pending : List Nat) (i : Nat) : List Nat :=
  pending.filter (fun p => decide (p ≠ i))

/-- The state after `forceFlush` resolves: every delivery that was in flight
at call time has settled, and each settlement ran its `finally` removal. -/
def afterFlush (st : ExporterState) : ExporterState :=
  { st with pending := st.pending.foldl settleRemove st.pending }

/-- Lines 166-169: `shutdown` awaits `forceFlush`, then assigns
`pendingExports = []`. -/
def shutdownRun (st : ExporterState) : ExporterState :=
  { afterFlush st with pending := [] }

/-- Concrete configuration used by the concrete scenarios. -/
def cfg0 : Config :=
  { baseUrl := "https://app.freeplay.ai/api/v2".data
  , projectId := "p1".data
  , apiKey := "k1".data
  , environment := "prod".data }

/-- The 32-hex-character trace id of the spec's concrete scenario. -/
def tid0 : List Char := "0123456789abcdef0123456789abcdef".data

/-- A fully valid generate-operation span. -/
def validSpanA : Span :=
  { name := "ai.generateText.doGenerate".data
  , traceId := tid0
  , attributes :=
      [("ai.telemetry.functionId".data, AttrValue.str ("fn-1".data)),
       ("ai.prompt.messages".data, AttrValue.str ("[]".data))] }

/-- A fully valid stream-operation span. -/
def validSpanB : Span :=
  { name := "ai.streamText.doStream".data
  , traceId := tid0
  , attributes :=
      [("ai.telemetry.functionId".data, AttrValue.str ("fn-2".data)),
       ("ai.prompt.messages".data, AttrValue.str ("[]".data))] }

/-- A relevant span lacking the `ai.prompt.messages` attribute. -/
def spanMissingPM : Span :=
  { name := "ai.generateText.doGenerate".data
  , traceId := tid0
  , attributes := [("ai.telemetry.functionId".data, AttrValue.str ("fn-3".data))] }

/-- A relevant span whose `ai.prompt.messages` is the valid JSON text `"5"`
(parsing to the number 5, not an array) and which carries a truthy
`ai.response.text`. -/
def spanNonArray : Span :=
  { name := "ai.generateText.doGenerate".data
  , traceId := tid0
  , attributes :=
      [("ai.telemetry.functionId".data, AttrValue.str ("fn-4".data)),
       ("ai.prompt.messages".data, AttrValue.str ("5".data)),
       ("ai.response.text".data, AttrValue.str ("hi".data))] }

/-- A relevant span whose `ai.telemetry.functionId` is present but is the
empty string. -/
def spanEmptyFn : Span :=
  { name := "ai.generateText.doGenerate".data
  , traceId := tid0
  , attributes :=
      [("ai.telemetry.functionId".data, AttrValue.str []),
       ("ai.prompt.messages".data, AttrValue.str ("[]".data))] }

/-- A span whose name is not in the recognized list. -/
def spanOther : Span :=
  { name := "db.query".data
  , traceId := tid0
  , attributes := [] }

/-- A concrete `JSON.parse` oracle: the text `[]` parses to the empty array,
the text `5` parses to the (non-array) number 5, anything else fails. -/
def parse0 : JsonParse := fun s =>
  if s = "[]".data then Except.ok (ParsedJson.arr [])
  else if s = "5".data then Except.ok ParsedJson.nonArray
  else Except.error ()

/-- A `JSON.parse` oracle producing only arrays: the text `[]` parses to the
empty array, anything else fails. -/
def parseArr : JsonParse := fun s =>
  if s = "[]".data then Except.ok (ParsedJson.arr []) else Except.error ()

/-- The attributes object of the spec's `extractInputs` scenario. -/
def exampleAttrs : List (List Char × AttrValue) :=
  [("ai.telemetry.metadata.inputs.user".data, AttrValue.str ("bob".data)),
   ("ai.telemetry.metadata.inputs.age".data, AttrValue.num 5),
   ("other.key".data, AttrValue.str ("x".data))]

/-- A network oracle in which every request gets HTTP 200. -/
def oracle200 : Nat → FetchOutcome := fun _ => FetchOutcome.response 200

/-- A network oracle in which the first request gets HTTP 500 and every other
request gets HTTP 200. -/
def oracleOneFail : Nat → FetchOutcome := fun i =>
  if i = 0 then FetchOutcome.response 500 else FetchOutcome.response 200

/-! ### Helper lemmas about list slicing -/

theorem take_len_append {α : Type} (A R : List α) : (A ++ R).take A.length = A := by
  induction A with
  | nil => rfl
  | cons a A ih => simp [ih]

theorem drop_len_append {α : Type} (A R : List α) : (A ++ R).drop A.length = R := by
  induction A with
  | nil => rfl
  | cons a A ih => simp [ih]

theorem getElem?_at_append {α : Type} (A : List α) (b : α) (R : List α) :
    (A ++ b :: R)[A.length]? = some b := by
  induction A with
  | nil => simp
  | cons a A ih =>
    show (a :: (A ++ b :: R))[A.length + 1]? = some b
    rw [List.getElem?_cons_succ]
    exact ih

theorem take_chain (t : List Char) (m n : Nat) (h : m ≤ n) :
    t.take m ++ (t.take n).drop m = t.take n := by
  conv_rhs => rw [← List.take_append_drop m (t.take n)]
  rw [List.take_take, Nat.min_eq_left h]

theorem hyphen_layout (A B C D E : List Char)
    (hA : A.length = 8) (hB : B.length = 4) (hC : C.length = 4) (hD : D.length = 4)
    (hE : E.length = 12) :
    (A ++ '-' :: (B ++ '-' :: (C ++ '-' :: (D ++ '-' :: E)))).length = 36
    ∧ (A ++ '-' :: (B ++ '-' :: (C ++ '-' :: (D ++ '-' :: E))))[8]? = some '-'
    ∧ (A ++ '-' :: (B ++ '-' :: (C ++ '-' :: (D ++ '-' :: E))))[13]? = some '-'
    ∧ (A ++ '-' :: (B ++ '-' :: (C ++ '-' :: (D ++ '-' :: E))))[18]? = some '-'
    ∧ (A ++ '-' :: (B ++ '-' :: (C ++ '-' :: (D ++ '-' :: E))))[23]? = some '-'
    ∧ (A ++ '-' :: (B ++ '-' :: (C ++ '-' :: (D ++ '-' :: E)))).take 8 ++
        (((A ++ '-' :: (B ++ '-' :: (C ++ '-' :: (D ++ '-' :: E)))).drop 9).take 4 ++
          (((A ++ '-' :: (B ++ '-' :: (C ++ '-' :: (D ++ '-' :: E)))).drop 14).take 4 ++
            (((A ++ '-' :: (B ++ '-' :: (C ++ '-' :: (D ++ '-' :: E)))).drop 19).take 4 ++
              (A ++ '-' :: (B ++ '-' :: (C ++ '-' :: (D ++ '-' :: E)))).drop 24)))
        = A ++ (B ++ (C ++ (D ++ E))) := by
  set u := A ++ '-' :: (B ++ '-' :: (C ++ '-' :: (D ++ '-' :: E))) with hu
  have e8 : u.take 8 = A := by
    rw [hu, ← hA, take_len_append]
  have e9 : u.drop 9 = B ++ '-' :: (C ++ '-' :: (D ++ '-' :: E)) := by
    have h1 : u = (A ++ ['-']) ++ (B ++ '-' :: (C ++ '-' :: (D ++ '-' :: E))) := by
      rw [hu]; simp
    have h2 : (A ++ ['-']).length = 9 := by simp [hA]
    rw [h1, ← h2, drop_len_append]
  have e9t : (u.drop 9).take 4 = B := by
    rw [e9, ← hB, take_len_append]
  have e14 : u.drop 14 = C ++ '-' :: (D ++ '-' :: E) := by
    have h1 : u = (A ++ '-' :: (B ++ ['-'])) ++ (C ++ '-' :: (D ++ '-' :: E)) := by
      rw [hu]; simp
    have h2 : (A ++ '-' :: (B ++ ['-'])).length = 14 := by simp [hA, hB]
    rw [h1, ← h2, drop_len_append]
  have e14t : (u.drop 14).take 4 = C := by
    rw [e14, ← hC, take_len_append]
  have e19 : u.drop 19 = D ++ '-' :: E := by
    have h1 : u = (A ++ '-' :: (B ++ '-' :: (C ++ ['-']))) ++ (D ++ '-' :: E) := by
      rw [hu]; simp
    have h2 : (A ++ '-' :: (B ++ '-' :: (C ++ ['-']))).length = 19 := by simp [hA, hB, hC]
    rw [h1, ← h2, drop_len_append]
  have e19t : (u.drop 19).take 4 = D := by
    rw [e19, ← hD, take_len_append]
  have e24 : u.drop 24 = E := by
    have h1 : u = (A ++ '-' :: (B ++ '-' :: (C ++ '-' :: (D ++ ['-'])))) ++ E := by
      rw [hu]; simp
    have h2 : (A ++ '-' :: (B ++ '-' :: (C ++ '-' :: (D ++ ['-'])))).length = 24 := by
      simp [hA, hB, hC, hD]
    rw [h1, ← h2, drop_len_append]
  refine ⟨?_, ?_, ?_, ?_, ?_, ?_⟩
  · rw [hu]; simp [hA, hB, hC, hD, hE]
  · rw [hu, ← hA]
    exact getElem?_at_append _ _ _
  · have h1 : u = (A ++ '-' :: B) ++ '-' :: (C ++ '-' :: (D ++ '-' :: E)) := by
      rw [hu]; simp
    have h2 : (A ++ '-' :: B).length = 13 := by simp [hA, hB]
    rw [h1, ← h2]
    exact getElem?_at_append _ _ _
  · have h1 : u = (A ++ '-' :: (B ++ '-' :: C)) ++ '-' :: (D ++ '-' :: E) := by
      rw [hu]; simp
    have h2 : (A ++ '-' :: (B ++ '-' :: C)).length = 18 := by simp [hA, hB, hC]
    rw [h1, ← h2]
    exact getElem?_at_append _ _ _
  · have h1 : u = (A ++ '-' :: (B ++ '-' :: (C ++ '-' :: D))) ++ '-' :: E := by
      rw [hu]; simp
    have h2 : (A ++ '-' :: (B ++ '-' :: (C ++ '-' :: D))).length = 23 := by
      simp [hA, hB, hC, hD]
    rw [h1, ← h2]
    exact getElem?_at_append _ _ _
  · rw [e8, e9t, e14t, e19t, e24]

/-- Claim C4: for every 32-character trace id `t`, `formatTraceIdToUUID t`
succeeds deterministically with a 36-character string carrying hyphens at
positions 8, 13, 18 and 23 whose remaining 32 characters are `t`'s characters
in original order (positional slicing, hence reversible); in particular the
spec's concrete trace id maps to the spec's concrete session id. -/
theorem c4_session_id_derivation (t : List Char) (ht : t.length = 32) :
    (∃ u, formatTraceIdToUUID t = Except.ok u
      ∧ u.length = 36
      ∧ u[8]? = some '-' ∧ u[13]? = some '-' ∧ u[18]? = some '-' ∧ u[23]? = some '-'
      ∧ u.take 8 ++ ((u.drop 9).take 4 ++ ((u.drop 14).take 4 ++ ((u.drop 19).take 4 ++ u.drop 24))) = t)
    ∧ formatTraceIdToUUID ("0123456789abcdef0123456789abcdef".data)
        = Except.ok ("01234567-89ab-cdef-0123-456789abcdef".data) := by
  constructor
  · refine ⟨jsSlice t 0 8 ++ '-' ::
      (jsSlice t 8 12 ++ '-' ::
        (jsSlice t 12 16 ++ '-' ::
          (jsSlice t 16 20 ++ '-' :: jsSliceFrom t 20))), ?_, ?_⟩
    · simp [formatTraceIdToUUID, ht]
    · have hA : (jsSlice t 0 8).length = 8 := by simp [jsSlice, ht]
      have hB : (jsSlice t 8 12).length = 4 := by simp [jsSlice, ht]
      have hC : (jsSlice t 12 16).length = 4 := by simp [jsSlice, ht]
      have hD : (jsSlice t 16 20).length = 4 := by simp [jsSlice, ht]
      have hE : (jsSliceFrom t 20).length = 12 := by simp [jsSliceFrom, ht]
      obtain ⟨l1, l2, l3, l4, l5, l6⟩ := hyphen_layout _ _ _ _ _ hA hB hC hD hE
      refine ⟨l1, l2, l3, l4, l5, ?_⟩
      rw [l6]
      show t.take 8 ++ ((t.take 12).drop 8 ++ ((t.take 16).drop 12 ++
        ((t.take 20).drop 16 ++ t.drop 20))) = t
      rw [← List.append_assoc, take_chain t 8 12 (by omega),
        ← List.append_assoc, take_chain t 12 16 (by omega),
        ← List.append_assoc, take_chain t 16 20 (by omega),
        List.take_append_drop]
  · rfl

/-- Witness for C4 at the concrete 32-character trace id of the spec. -/
theorem c4_session_id_derivation_witness :
    ("0123456789abcdef0123456789abcdef".data).length = 32
    ∧ formatTraceIdToUUID ("0123456789abcdef0123456789abcdef".data)
        = Except.ok ("01234567-89ab-cdef-0123-456789abcdef".data) :=
  ⟨by decide, (c4_session_id_derivation ("0123456789abcdef0123456789abcdef".data) (by decide)).2⟩

/-- Claim C8: for every string whose length is not exactly 32,
`formatTraceIdToUUID` fails with the invalid-trace-id error instead of
returning a value. -/
theorem c8_invalid_trace_id (t : List Char) (ht : t.length ≠ 32) :
    formatTraceIdToUUID t
      = Except.error ("Invalid traceId length; expected 32 characters".data) := by
  simp [formatTraceIdToUUID, ht]

/-- Witness for C8 at a concrete 3-character string. -/
theorem c8_invalid_trace_id_witness :
    ("abc".data).length ≠ 32
    ∧ formatTraceIdToUUID ("abc".data)
        = Except.error ("Invalid traceId length; expected 32 characters".data) :=
  ⟨by decide, c8_invalid_trace_id ("abc".data) (by decide)⟩

/-! ### Lemmas about `extractInputs` -/

theorem strStartsWith_append (s p : List Char) (h : strStartsWith s p = true) :
    p ++ s.drop p.length = s := by
  induction p generalizing s with
  | nil => simp
  | cons a ps ih =>
    cases s with
    | nil => simp [strStartsWith] at h
    | cons b ss =>
      simp only [strStartsWith, Bool.and_eq_true, decide_eq_true_eq] at h
      obtain ⟨hba, hrest⟩ := h
      subst hba
      simpa using ih ss hrest

theorem startsWith_drop_inj (k1 k2 : List Char)
    (h1 : strStartsWith k1 metadataInputsKey = true)
    (h2 : strStartsWith k2 metadataInputsKey = true)
    (h : k1.drop metadataInputsKey.length = k2.drop metadataInputsKey.length) :
    k1 = k2 := by
  have e1 := strStartsWith_append k1 metadataInputsKey h1
  have e2 := strStartsWith_append k2 metadataInputsKey h2
  rw [← e1, ← e2, h]

theorem insertJsObj_fresh (m : List (List Char × AttrValue)) (k : List Char) (v : AttrValue)
    (h : m.any (fun p => decide (p.1 = k)) = false) :
    insertJsObj m k v = m ++ [(k, v)] := by
  simp only [insertJsObj, h]
  rfl

theorem suffixes_nodup (attrs : List (List Char × AttrValue))
    (hnd : (attrs.map Prod.fst).Nodup) :
    (((attrs.map Prod.fst).filter (fun k => strStartsWith k metadataInputsKey)).map
      (fun k => k.drop metadataInputsKey.length)).Nodup := by
  apply List.Nodup.map_on
  · intro x hx y hy hxy
    exact startsWith_drop_inj x y ((List.mem_filter.mp hx).2) ((List.mem_filter.mp hy).2) hxy
  · exact hnd.filter _

theorem extract_go (attrs : List (List Char × AttrValue)) :
    ∀ acc : List (List Char × AttrValue),
    (∀ kv ∈ attrs, strStartsWith kv.1 metadataInputsKey = true →
      acc.any (fun p => decide (p.1 = kv.1.drop metadataInputsKey.length)) = false) →
    ((((attrs.map Prod.fst).filter (fun k => strStartsWith k metadataInputsKey)).map
      (fun k => k.drop metadataInputsKey.length)).Nodup) →
    attrs.foldl
      (fun inputs kv =>
        if strStartsWith kv.1 metadataInputsKey then
          if kv.2 ≠ AttrValue.null then
            insertJsObj inputs (kv.1.drop metadataInputsKey.length) kv.2
          else inputs
        else inputs)
      acc
    = acc ++ attrs.filterMap (fun kv =>
        if strStartsWith kv.1 metadataInputsKey = true ∧ kv.2 ≠ AttrValue.null then
          some (kv.1.drop metadataInputsKey.length, kv.2)
        else none) := by
  induction attrs with
  | nil => intro acc _ _; simp
  | cons kv rest ih =>
    intro acc hfresh hnd
    by_cases hp : strStartsWith kv.1 metadataInputsKey = true
    · by_cases hv : kv.2 = AttrValue.null
      · have hstep : (if strStartsWith kv.1 metadataInputsKey then
            if kv.2 ≠ AttrValue.null then
              insertJsObj acc (kv.1.drop metadataInputsKey.length) kv.2
            else acc
          else acc) = acc := by
          simp [hp, hv]
        have hg : (if strStartsWith kv.1 metadataInputsKey = true ∧ kv.2 ≠ AttrValue.null then
            some (kv.1.drop metadataInputsKey.length, kv.2)
          else none) = none := by
          simp [hv]
        rw [List.foldl_cons, hstep, List.filterMap_cons, hg]
        apply ih acc
        · intro kv' hkv' hp'
          exact hfresh kv' (List.mem_cons_of_mem kv hkv') hp'
        · have : ((kv :: rest).map Prod.fst).filter
              (fun k => strStartsWith k metadataInputsKey)
              = kv.1 :: ((rest.map Prod.fst).filter (fun k => strStartsWith k metadataInputsKey)) := by
            simp [hp]
          rw [this] at hnd
          simp only [List.map_cons, List.nodup_cons] at hnd
          exact hnd.2
      · have hfkv := hfresh kv (List.mem_cons_self kv rest) hp
        have hstep : (if strStartsWith kv.1 metadataInputsKey then
            if kv.2 ≠ AttrValue.null then
              insertJsObj acc (kv.1.drop metadataInputsKey.length) kv.2
            else acc
          else acc) = acc ++ [(kv.1.drop metadataInputsKey.length, kv.2)] := by
          rw [if_pos hp, if_pos hv, insertJsObj_fresh acc _ _ hfkv]
        have hg : (if strStartsWith kv.1 metadataInputsKey = true ∧ kv.2 ≠ AttrValue.null then
            some (kv.1.drop metadataInputsKey.length, kv.2)
          else none) = some (kv.1.drop metadataInputsKey.length, kv.2) := by
          simp [hp, hv]
        have hfilter : ((kv :: rest).map Prod.fst).filter
            (fun k => strStartsWith k metadataInputsKey)
            = kv.1 :: ((rest.map Prod.fst).filter (fun k => strStartsWith k metadataInputsKey)) := by
          simp [hp]
        rw [hfilter] at hnd
        simp only [List.map_cons, List.nodup_cons] at hnd
        rw [List.foldl_cons, hstep, List.filterMap_cons, hg]
        have hrec := ih (acc ++ [(kv.1.drop metadataInputsKey.length, kv.2)]) ?_ hnd.2
        · rw [hrec]
          simp
        · intro kv' hkv' hp'
          rw [List.any_append]
          have h1 : acc.any (fun p => decide (p.1 = kv'.1.drop metadataInputsKey.length)) = false :=
            hfresh kv' (List.mem_cons_of_mem kv hkv') hp'
          have h2 : kv.1.drop metadataInputsKey.length ≠ kv'.1.drop metadataInputsKey.length := by
            intro heq
            apply hnd.1
            rw [heq]
            exact List.mem_map_of_mem _ (List.mem_filter_of_mem (List.mem_map_of_mem _ hkv') hp')
          simp [h1, h2]
    · have hstep : (if strStartsWith kv.1 metadataInputsKey then
          if kv.2 ≠ AttrValue.null then
            insertJsObj acc (kv.1.drop metadataInputsKey.length) kv.2
          else acc
        else acc) = acc := by
        simp [hp]
      have hg : (if strStartsWith kv.1 metadataInputsKey = true ∧ kv.2 ≠ AttrValue.null then
          some (kv.1.drop metadataInputsKey.length, kv.2)
        else none) = none := by
        simp [hp]
      rw [List.foldl_cons, hstep, List.filterMap_cons, hg]
      apply ih acc
      · intro kv' hkv' hp'
        exact hfresh kv' (List.mem_cons_of_mem kv hkv') hp'
      · have hfilter : ((kv :: rest).map Prod.fst).filter
            (fun k => strStartsWith k metadataInputsKey)
            = (rest.map Prod.fst).filter (fun k => strStartsWith k metadataInputsKey) := by
          simp [hp]
        rw [hfilter] at hnd
        exact hnd

/-- Claim C7: for every attributes mapping (attribute keys are unique, as in
any JavaScript object), `extractInputs` returns exactly the entries whose key
begins with `"ai.telemetry.metadata.inputs."`, keyed by the suffix after that
lead-in, with the original value preserved, provided the value is neither
null nor absent; keys without the lead-in contribute nothing.  In particular
the spec's concrete example maps to exactly the two expected entries. -/
theorem c7_extract_inputs (attrs : List (List Char × AttrValue))
    (hnd : (attrs.map Prod.fst).Nodup) :
    extractInputs attrs
      = attrs.filterMap (fun kv =>
          if strStartsWith kv.1 metadataInputsKey = true ∧ kv.2 ≠ AttrValue.null then
            some (kv.1.drop metadataInputsKey.length, kv.2)
          else none)
    ∧ extractInputs exampleAttrs
      = [("user".data, AttrValue.str ("bob".data)), ("age".data, AttrValue.num 5)] := by
  constructor
  · have h := extract_go attrs [] (by simp) (suffixes_nodup attrs hnd)
    simpa [extractInputs] using h
  · rfl

/-- Witness for C7 at the spec's concrete attributes object. -/
theorem c7_extract_inputs_witness :
    (exampleAttrs.map Prod.fst).Nodup
    ∧ extractInputs exampleAttrs
      = [("user".data, AttrValue.str ("bob".data)), ("age".data, AttrValue.num 5)] :=
  ⟨by decide, (c7_extract_inputs exampleAttrs (by decide)).2⟩

/-! ### Lemmas about the in-flight set -/

theorem runPending_go (evs : List Event) :
    ∀ issued settled : List Nat, noSettleBeforeIssue settled evs = true →
    List.foldl stepPending (issued.filter (fun i => decide (i ∉ settled))) evs
      = (issued ++ issuedBy evs).filter
          (fun i => decide (i ∉ settled ++ settledBy evs)) := by
  induction evs with
  | nil => intro issued settled _; simp [issuedBy, settledBy]
  | cons ev rest ih =>
    intro issued settled hwf
    cases ev with
    | issue j =>
      simp only [noSettleBeforeIssue, Bool.and_eq_true, decide_eq_true_eq] at hwf
      obtain ⟨hj, hwf⟩ := hwf
      rw [List.foldl_cons]
      have hstep : stepPending (issued.filter (fun i => decide (i ∉ settled))) (Event.issue j)
          = (issued ++ [j]).filter (fun i => decide (i ∉ settled)) := by
        simp [stepPending, List.filter_append, hj]
      rw [hstep, ih (issued ++ [j]) settled hwf]
      simp [issuedBy, settledBy, List.append_assoc]
    | settle j =>
      simp only [noSettleBeforeIssue] at hwf
      rw [List.foldl_cons]
      have hstep : stepPending (issued.filter (fun i => decide (i ∉ settled))) (Event.settle j)
          = issued.filter (fun i => decide (i ∉ settled ++ [j])) := by
        simp only [stepPending, List.filter_filter]
        apply List.filter_congr
        intro x _
        simp only [List.mem_append, List.mem_singleton, decide_eq_true_eq]
        by_cases hx : x ∈ settled <;> by_cases hxj : x = j <;> simp [hx, hxj]
      rw [hstep, ih issued (settled ++ [j]) hwf]
      simp [issuedBy, settledBy, List.append_assoc]

/-- Claim C2: over every well-formed trace of delivery issue and settlement
events (no delivery settles before it is issued; promise objects are
pairwise distinct), the `pendingExports` list maintained by the push of line
132 and the `finally` removal of lines 128-131 is exactly the list of issued
deliveries that have not yet settled, with no duplicates — nothing is
double-counted or leaked. -/
theorem c2_pending_invariant (evs : List Event)
    (hwf : noSettleBeforeIssue [] evs = true)
    (hnd : (issuedBy evs).Nodup) :
    runPending evs = (issuedBy evs).filter (fun i => decide (i ∉ settledBy evs))
    ∧ (runPending evs).Nodup := by
  have h := runPending_go evs [] [] hwf
  simp only [List.filter_nil, List.nil_append] at h
  refine ⟨h, ?_⟩
  show (List.foldl stepPending [] evs).Nodup
  rw [h]
  exact hnd.filter _

/-- Witness for C2 on the concrete trace: issue delivery 0, issue delivery
1, delivery 0 settles; the in-flight set is then exactly the unsettled
delivery 1. -/
theorem c2_pending_invariant_witness :
    runPending [Event.issue 0, Event.issue 1, Event.settle 0] = [1] := by
  have h := (c2_pending_invariant [Event.issue 0, Event.issue 1, Event.settle 0]
    (by decide) (by decide)).1
  exact h.trans (by decide)

/-! ### Lemmas about promise settlement and the lifecycle methods -/

theorem promiseState_fulfilled (o : FetchOutcome) :
    promiseState o = SettleState.fulfilled := by
  unfold promiseState afterCatch
  cases h : afterThen o <;> rfl

theorem foldl_settleRemove (l : List Nat) :
    ∀ acc : List Nat, l.foldl settleRemove acc = acc.filter (fun p => decide (p ∉ l)) := by
  induction l with
  | nil => intro acc; simp
  | cons i l ih =>
    intro acc
    rw [List.foldl_cons, ih]
    simp only [settleRemove, List.filter_filter]
    apply List.filter_congr
    intro x _
    by_cases hx : x ∈ l <;> by_cases hxi : x = i <;> simp [hx, hxi]

/-- Claim C9: `forceFlush` and `shutdown` never reject (every tracked
promise fulfills, because the per-delivery `catch` handler converts any
delivery failure into fulfillment before `Promise.all` observes it); a flush
awaits exactly the in-flight set at call time and resolves once all of it
has settled; after `shutdown` the in-flight set is empty, so a second
`shutdown` awaits nothing (no duplicate flush side effects, no error) and
leaves the state unchanged — `shutdown` is idempotent. -/
theorem c9_lifecycle (st : ExporterState) :
    flushRejects st = false
    ∧ flushRejects (shutdownRun st) = false
    ∧ (afterFlush st).pending = []
    ∧ (shutdownRun st).pending = []
    ∧ flushAwaits (shutdownRun st) = []
    ∧ shutdownRun (shutdownRun st) = shutdownRun st := by
  have hreject : ∀ s : ExporterState, flushRejects s = false := by
    intro s
    unfold flushRejects
    simp [promiseState_fulfilled]
  have hflush : (afterFlush st).pending = [] := by
    unfold afterFlush
    simp only [foldl_settleRemove]
    rw [List.filter_eq_nil_iff]
    intro a ha
    simp [ha]
  refine ⟨hreject st, hreject _, hflush, ?_, ?_, ?_⟩
  · rfl
  · rfl
  · unfold shutdownRun afterFlush
    rfl

/-! ### Lemmas about the export loop -/

theorem collectRequests_skip (cfg : Config) (parse : JsonParse) (s : Span)
    (h : isRelevant s = false ∨ ∃ r, processSpan cfg parse s = SpanStep.dropped r)
    (pre post : List Span) :
    collectRequests cfg parse (pre ++ s :: post) = collectRequests cfg parse (pre ++ post) := by
  induction pre with
  | nil =>
    simp only [List.nil_append]
    rcases h with h | ⟨r, h⟩
    · simp [collectRequests, h]
    · by_cases hrel : isRelevant s
      · simp [collectRequests, hrel, h]
      · simp [collectRequests, hrel]
  | cons p pre ih =>
    simp only [List.cons_append]
    show collectRequests cfg parse (p :: (pre ++ s :: post))
      = collectRequests cfg parse (p :: (pre ++ post))
    unfold collectRequests
    rw [ih]

theorem exportRun_congr (cfg : Config) (parse : JsonParse) (oracle : Nat → FetchOutcome)
    (spans1 spans2 : List Span)
    (h : collectRequests cfg parse spans1 = collectRequests cfg parse spans2) :
    exportRun cfg parse oracle spans1 = exportRun cfg parse oracle spans2 := by
  unfold exportRun
  rw [h]

theorem batchResult_code (n : Nat) (oracle : Nat → FetchOutcome) :
    batchResult n oracle = { code := 0, error := none }
    ∨ ∃ k, batchResult n oracle = { code := 1, error := some (failMessage k) } := by
  unfold batchResult
  split
  · right; exact ⟨_, rfl⟩
  · left; rfl

theorem batchResult_always_success (n : Nat) (oracle : Nat → FetchOutcome) :
    batchResult n oracle = { code := 0, error := none } := by
  unfold batchResult
  have h : (settleStates n oracle).filter (fun s => decide (s = SettleState.rejected)) = [] := by
    rw [List.filter_eq_nil_iff]
    intro a ha
    unfold settleStates at ha
    simp only [List.mem_map] at ha
    obtain ⟨i, _, hi⟩ := ha
    rw [← hi, promiseState_fulfilled]
    simp
  rw [h]
  rfl

theorem processSpan_ne_thrown (cfg : Config) (parse : JsonParse) (s : Span)
    (hparse : ∀ str pj, parse str = Except.ok pj → pj ≠ ParsedJson.nonArray) :
    processSpan cfg parse s ≠ SpanStep.thrown := by
  unfold processSpan
  cases hfmt : formatTraceIdToUUID s.traceId with
  | error e => simp
  | ok sid =>
    cases hfn : attrLookup s.attributes functionIdKey with
    | none => simp
    | some fv =>
      by_cases hft : fv.truthy = false
      · simp [hft]
      · cases hpm : attrLookup s.attributes promptMessagesKey with
        | none => simp [hft]
        | some pmVal =>
          by_cases hpt : pmVal.truthy = false
          · simp [hft, hpt]
          · cases hps : parse pmVal.jsToString with
            | error e => simp [hft, hpt, hps]
            | ok parsed =>
              cases parsed with
              | nonArray => exact absurd rfl (hparse _ _ hps)
              | arr ms => simp [hft, hpt, hps]

theorem collectRequests_ok (cfg : Config) (parse : JsonParse)
    (hparse : ∀ str pj, parse str = Except.ok pj → pj ≠ ParsedJson.nonArray) :
    ∀ spans : List Span, ∃ reqs, collectRequests cfg parse spans = some reqs := by
  intro spans
  induction spans with
  | nil => exact ⟨[], rfl⟩
  | cons s rest ih =>
    obtain ⟨reqs, hreqs⟩ := ih
    by_cases hrel : isRelevant s
    · cases hps : processSpan cfg parse s with
      | thrown => exact absurd hps (processSpan_ne_thrown cfg parse s hparse)
      | dropped r => exact ⟨reqs, by simp [collectRequests, hrel, hps, hreqs]⟩
      | issued req => exact ⟨req :: reqs, by simp [collectRequests, hrel, hps, hreqs]⟩
    · exact ⟨reqs, by simp [collectRequests, hrel, hreqs]⟩

/-- Claim C5: a relevant span dropped for a per-span malformed-input reason
(invalid trace id, missing or falsy required attribute, or
malformed-JSON prompt messages — exactly the `dropped` outcomes of
`processSpan`) contributes no request and leaves the batch result of the
remaining spans unchanged, so a dropped span never causes batch failure; in
particular the batch pairing one span lacking `ai.prompt.messages` with one
fully valid span issues exactly one request, the one of the valid span. -/
theorem c5_malformed_span_recoverable (cfg : Config) (parse : JsonParse)
    (oracle : Nat → FetchOutcome) (pre post : List Span) (s : Span) (r : DropReason)
    (hdrop : processSpan cfg parse s = SpanStep.dropped r) :
    collectRequests cfg parse (pre ++ s :: post) = collectRequests cfg parse (pre ++ post)
    ∧ exportRun cfg parse oracle (pre ++ s :: post) = exportRun cfg parse oracle (pre ++ post)
    ∧ (∃ req, processSpan cfg0 parse0 validSpanA = SpanStep.issued req
        ∧ collectRequests cfg0 parse0 [spanMissingPM, validSpanA] = some [req]) := by
  have h1 := collectRequests_skip cfg parse s (Or.inr ⟨r, hdrop⟩) pre post
  exact ⟨h1, exportRun_congr cfg parse oracle _ _ h1, ⟨_, rfl, rfl⟩⟩

/-- Witness for C5: the concrete span lacking `ai.prompt.messages` is
dropped, and removing it from the batch does not change the issued
requests. -/
theorem c5_malformed_span_recoverable_witness :
    processSpan cfg0 parse0 spanMissingPM = SpanStep.dropped DropReason.missingPromptMessages
    ∧ collectRequests cfg0 parse0 ([] ++ spanMissingPM :: [validSpanA])
        = collectRequests cfg0 parse0 ([] ++ [validSpanA]) :=
  ⟨by decide, (c5_malformed_span_recoverable cfg0 parse0 oracle200 [] [validSpanA]
      spanMissingPM DropReason.missingPromptMessages (by decide)).1⟩

/-- Claim C6: the span filter selects exactly the spans whose name equals
one of the two fixed recognized names; every other span is passed over with
no side effect; and a batch yielding zero issued deliveries makes `export`
invoke the callback immediately with success and zero network calls. -/
theorem c6_span_filter (cfg : Config) (parse : JsonParse) (oracle : Nat → FetchOutcome)
    (spans : List Span)
    (hempty : collectRequests cfg parse spans = some []) :
    (∀ s : Span, isRelevant s = true ↔
      (s.name = "ai.generateText.doGenerate".data ∨ s.name = "ai.streamText.doStream".data))
    ∧ (∀ s : Span, isRelevant s = false →
        ∀ pre post : List Span,
          collectRequests cfg parse (pre ++ s :: post) = collectRequests cfg parse (pre ++ post))
    ∧ exportRun cfg parse oracle spans
        = ExportOutcome.completed [] [{ code := 0, error := none }] := by
  refine ⟨?_, ?_, ?_⟩
  · intro s
    simp only [isRelevant, recognizedNames, List.any_cons, List.any_nil,
      Bool.or_eq_true, Bool.false_eq_true, or_false, decide_eq_true_eq]
    constructor
    · rintro (h | h)
      · exact Or.inl h.symm
      · exact Or.inr h.symm
    · rintro (h | h)
      · exact Or.inl h.symm
      · exact Or.inr h.symm
  · intro s hs pre post
    exact collectRequests_skip cfg parse s (Or.inl hs) pre post
  · unfold exportRun
    rw [hempty]
    rfl

/-- Witness for C6: a batch holding only a span with an unrecognized name
yields immediate success with zero requests. -/
theorem c6_span_filter_witness :
    collectRequests cfg0 parse0 [spanOther] = some []
    ∧ exportRun cfg0 parse0 oracle200 [spanOther]
        = ExportOutcome.completed [] [{ code := 0, error := none }] :=
  ⟨by decide, (c6_span_filter cfg0 parse0 oracle200 [spanOther] (by decide)).2.2⟩

/-- Claim C10: for a relevant span with a valid trace id, a required
attribute that is present but falsy — `ai.telemetry.functionId` equal to the
empty string or to the number 0, or `ai.prompt.messages` equal to the empty
string — is treated exactly like a missing one: the span is dropped with no
delivery attempted and the rest of the batch is unaffected. -/
theorem c10_falsy_required_attrs (cfg : Config) (parse : JsonParse)
    (oracle : Nat → FetchOutcome) (pre post : List Span) (s : Span)
    (htid : s.traceId.length = 32)
    (hfalsy : attrLookup s.attributes functionIdKey = some (AttrValue.str [])
      ∨ attrLookup s.attributes functionIdKey = some (AttrValue.num 0)
      ∨ attrLookup s.attributes promptMessagesKey = some (AttrValue.str [])) :
    (∃ r, processSpan cfg parse s = SpanStep.dropped r)
    ∧ collectRequests cfg parse (pre ++ s :: post) = collectRequests cfg parse (pre ++ post)
    ∧ exportRun cfg parse oracle (pre ++ s :: post) = exportRun cfg parse oracle (pre ++ post) := by
  have hfmt : ∃ sid, formatTraceIdToUUID s.traceId = Except.ok sid := by
    unfold formatTraceIdToUUID
    rw [if_neg (by omega)]
    exact ⟨_, rfl⟩
  obtain ⟨sid, hsid⟩ := hfmt
  have hdrop : ∃ r, processSpan cfg parse s = SpanStep.dropped r := by
    rcases hfalsy with h | h | h
    · refine ⟨DropReason.missingFunctionId, ?_⟩
      simp only [processSpan, hsid, h]
      simp [AttrValue.truthy]
    · refine ⟨DropReason.missingFunctionId, ?_⟩
      simp only [processSpan, hsid, h]
      simp [AttrValue.truthy]
    · cases hfn : attrLookup s.attributes functionIdKey with
      | none =>
        exact ⟨DropReason.missingFunctionId, by simp only [processSpan, hsid, hfn]⟩
      | some fv =>
        by_cases hft : fv.truthy = false
        · refine ⟨DropReason.missingFunctionId, ?_⟩
          simp only [processSpan, hsid, hfn]
          simp [hft]
        · rw [Bool.not_eq_false] at hft
          refine ⟨DropReason.missingPromptMessages, ?_⟩
          simp only [processSpan, hsid, hfn, h]
          rw [hft]
          simp [AttrValue.truthy]
  have h2 := collectRequests_skip cfg parse s (Or.inr hdrop) pre post
  exact ⟨hdrop, h2, exportRun_congr cfg parse oracle _ _ h2⟩

/-- Witness for C10: the concrete span whose `ai.telemetry.functionId` is
the empty string is dropped and contributes nothing to its batch. -/
theorem c10_falsy_required_attrs_witness :
    spanEmptyFn.traceId.length = 32
    ∧ attrLookup spanEmptyFn.attributes functionIdKey = some (AttrValue.str [])
    ∧ collectRequests cfg0 parse0 ([] ++ spanEmptyFn :: [])
        = collectRequests cfg0 parse0 ([] ++ []) :=
  ⟨by decide, by decide,
    (c10_falsy_required_attrs cfg0 parse0 oracle200 [] [] spanEmptyFn (by decide)
      (Or.inl (by decide))).2.1⟩

/-- Claim C3 (amended): provided every successful `JSON.parse` of a prompt
messages attribute yields a JSON array, `export` never throws and the
callback is invoked exactly once per call, with code 0 or code 1.  (Without
that proviso the claim is false: see the counterexample theorem, where a
prompt messages attribute parsing to a non-array makes `messages.push`
throw a TypeError out of `export`.) -/
theorem c3_export_contract (cfg : Config) (parse : JsonParse) (oracle : Nat → FetchOutcome)
    (spans : List Span)
    (hparse : ∀ str pj, parse str = Except.ok pj → pj ≠ ParsedJson.nonArray) :
    ∃ reqs cb, exportRun cfg parse oracle spans = ExportOutcome.completed reqs [cb]
      ∧ (cb.code = 0 ∨ cb.code = 1) := by
  obtain ⟨reqs, hreqs⟩ := collectRequests_ok cfg parse hparse spans
  by_cases hlen : reqs.length = 0
  · refine ⟨reqs, { code := 0, error := none }, ?_, Or.inl rfl⟩
    unfold exportRun
    rw [hreqs]
    simp [hlen]
  · refine ⟨reqs, batchResult reqs.length oracle, ?_, ?_⟩
    · unfold exportRun
      rw [hreqs]
      simp [hlen]
    · rcases batchResult_code reqs.length oracle with h | ⟨k, h⟩
      · left; rw [h]
      · right; rw [h]

/-- Witness for C3 (amended) with an array-only parse oracle and a
single-valid-span batch. -/
theorem c3_export_contract_witness :
    (∀ str pj, parseArr str = Except.ok pj → pj ≠ ParsedJson.nonArray)
    ∧ ∃ reqs cb, exportRun cfg0 parseArr oracle200 [validSpanA]
        = ExportOutcome.completed reqs [cb] ∧ (cb.code = 0 ∨ cb.code = 1) := by
  have hp : ∀ str pj, parseArr str = Except.ok pj → pj ≠ ParsedJson.nonArray := by
    intro str pj h
    unfold parseArr at h
    by_cases hs : str = "[]".data
    · rw [if_pos hs] at h
      cases h
      simp
    · rw [if_neg hs] at h
      cases h
  exact ⟨hp, c3_export_contract cfg0 parseArr oracle200 [validSpanA] hp⟩

/-- Counterexample to C3 as stated: on a span whose `ai.prompt.messages`
holds the valid JSON text `5` (which parses to the number 5, not an array)
and whose `ai.response.text` is truthy, the `messages.push` of line 95 is a
TypeError on a non-array and `export` throws synchronously; the callback is
never invoked. -/
theorem c3_counterexample :
    parse0 ("5".data) = Except.ok ParsedJson.nonArray
    ∧ truthyOpt (attrLookup spanNonArray.attributes responseTextKey) = true
    ∧ exportRun cfg0 parse0 oracle200 [spanNonArray] = ExportOutcome.thrown := by
  refine ⟨rfl, by decide, rfl⟩

/-- Claim C1 (code bug): the per-delivery `catch` of lines 124-127 swallows
every delivery failure, so every tracked promise fulfills and
`Promise.allSettled` never observes a rejection; the failure branch of lines
144-149 is unreachable.  Concretely, a batch of two valid spans in which the
first delivery receives HTTP 500 (not a 2xx success) and the second HTTP 200
still reports success (code 0) instead of the claimed failure carrying a
count of 1. -/
theorem c1_batch_failure_unreported :
    responseOk 500 = false
    ∧ (∀ o : FetchOutcome, promiseState o = SettleState.fulfilled)
    ∧ (∃ reqs, exportRun cfg0 parse0 oracleOneFail [validSpanA, validSpanB]
        = ExportOutcome.completed reqs [{ code := 0, error := none }] ∧ reqs.length = 2) :=
  ⟨rfl, promiseState_fulfilled, ⟨_, rfl, rfl⟩⟩

end Freeplay
